import Mathlib

/-!
Shallow embedding of the Options-Screener backend's V2 trade evaluator
(the `router.post` handler of `src/evaluatetrades.ts`), over exact rational
arithmetic.  JavaScript numbers are modelled as `ℚ`; `Math.ceil` is `Int.ceil`;
`x.toFixed(n)` (followed by `parseFloat`) is round-half-up to `n` decimals;
optional fields are `Option`; the `YYYY-MM-DD` date strings are modelled as
calendar dates converted to Unix epoch days (`new Date(s).getTime()` is
midnight UTC, i.e. epoch days × 86400000 ms).
-/

namespace OptionsScreener

/-- Calendar date, the parse of a `YYYY-MM-DD` string. -/
structure Date where
  year : Int
  month : Nat
  day : Nat
deriving Repr, DecidableEq

/-- Gregorian leap-year test. -/
def isLeap (y : Int) : Bool :=
  (y % 4 == 0 && y % 100 != 0) || y % 400 == 0

/-- Number of days in a month of a given year. -/
def daysInMonth (y : Int) (m : Nat) : Nat :=
  if m = 2 then (if isLeap y then 29 else 28)
  else if m = 4 ∨ m = 6 ∨ m = 9 ∨ m = 11 then 30
  else 31

/-- Validity of a calendar date. -/
def Date.isValid (d : Date) : Prop :=
  1 ≤ d.month ∧ d.month ≤ 12 ∧ 1 ≤ d.day ∧ d.day ≤ daysInMonth d.year d.month

instance (d : Date) : Decidable d.isValid := by
  unfold Date.isValid; infer_instance

/-- Days since the Unix epoch (1970-01-01) of a calendar date, the standard
civil-from-days conversion; `new Date("YYYY-MM-DD").getTime()` equals this
times 86400000. -/
def Date.toEpochDays (d : Date) : Int :=
  let y : Int := if d.month ≤ 2 then d.year - 1 else d.year
  let era : Int := Int.fdiv y 400
  let yoe : Int := y - era * 400
  let mp : Int := (d.month + 9) % 12
  let doy : Int := Int.fdiv (153 * mp + 2) 5 + d.day - 1
  let doe : Int := yoe * 365 + Int.fdiv yoe 4 - Int.fdiv yoe 100 + doy
  era * 146097 + doe - 719468

/-- Milliseconds since the Unix epoch of midnight UTC at a date
(`new Date(s).getTime()`). -/
def Date.getTime (d : Date) : Int :=
  d.toEpochDays * 86400000

/-- Tolerances, all fields optional (`?` in the TypeScript interface;
`undefined`, and an absent `tolerances` object altogether, are `none`). -/
structure Tolerances where
  maxDTE : Option ℚ := none
  minROI : Option ℚ := none
  maxBeta : Option ℚ := none
  maxDelta : Option ℚ := none
deriving Repr, DecidableEq

/-- Option type of a trade: `"put" | "call"`. -/
inductive TradeType where
  | put : TradeType
  | call : TradeType
deriving Repr, DecidableEq

/-- Input trade. -/
structure Trade where
  symbol : String
  tradeDate : Date
  expirationDate : Date
  type : TradeType
  strike : ℚ
  bid : ℚ
  supportLevel : Option ℚ := none
  beta : ℚ
  delta : ℚ
deriving Repr, DecidableEq

/-- Suggestion buckets. -/
inductive Suggestion where
  | Conservative : Suggestion
  | Neutral : Suggestion
  | Aggressive : Suggestion
deriving Repr, DecidableEq

/-- Breakdown entry (the local `Part` type of the handler). -/
structure Part where
  key : String
  label : String
  max : ℚ
  earned : ℚ
  note : Option String := none
deriving Repr, DecidableEq

/-- Output record for one trade (the object literal returned from the map
callback; the `...trade` spread is kept as a `trade` field). -/
structure EvaluatedTrade where
  trade : Trade
  premium : ℚ
  breakeven : ℚ
  annualROI : ℚ
  dte : Int
  score : ℚ
  suggestion : Suggestion
  collateralAtRisk : ℚ
  supportVariancePct : Option ℚ
  hardFail : Bool
  breakdown : List Part
  totalPossible : ℚ
  pointsBeforePenalties : ℚ
  penaltiesApplied : ℚ
  pointsFinal : ℚ
deriving Repr, DecidableEq

/-- Round-half-up to `f` decimal places: the value of `x.toFixed(f)`
(ECMAScript picks the larger candidate on ties), as a rational. -/
def roundTo (f : Nat) (x : ℚ) : ℚ :=
  (⌊x * 10 ^ f + 1 / 2⌋ : ℤ) / 10 ^ f

/-- Left-pad a digit string with zeros to width `k`. -/
def padZeros (s : String) (k : Nat) : String :=
  String.mk (List.replicate (k - s.length) '0') ++ s

/-- Decimal rendering of `x.toFixed(f)`, used only inside breakdown notes. -/
def ratToFixed (f : Nat) (x : ℚ) : String :=
  let n : Int := ⌊x * 10 ^ f + 1 / 2⌋
  let sign : String := if n < 0 then "-" else ""
  let a : Nat := n.natAbs
  if f = 0 then sign ++ toString a
  else sign ++ toString (a / 10 ^ f) ++ "." ++ padZeros (toString (a % 10 ^ f)) f

/-- Days to expiration:
`Math.max(1, Math.ceil((exp.getTime() - trade.getTime()) / 86400000))`. -/
def dte (trade : Trade) : Int :=
  max 1
    ⌈((trade.expirationDate.getTime - trade.tradeDate.getTime : ℤ) : ℚ) /
      (1000 * 60 * 60 * 24)⌉

/-- Premium: `bid * 100`. -/
def premium (trade : Trade) : ℚ := trade.bid * 100

/-- Breakeven: `strike - bid` for puts, `strike + bid` for calls. -/
def breakeven (trade : Trade) : ℚ :=
  match trade.type with
  | .put => trade.strike - trade.bid
  | .call => trade.strike + trade.bid

/-- Annualized ROI: `(strike > 0 ? bid/strike : 0) * (365 / dte)`. -/
def annualROI (trade : Trade) : ℚ :=
  (if 0 < trade.strike then trade.bid / trade.strike else 0) *
    (365 / (dte trade : ℚ))

/-- Collateral at risk: `strike * 100`. -/
def collateralAtRisk (trade : Trade) : ℚ := trade.strike * 100

/-- Support variance percent, only for puts with a numeric `supportLevel` and
positive strike; `null` otherwise. -/
def supportVariancePct (trade : Trade) : Option ℚ :=
  if trade.type = .put then
    match trade.supportLevel with
    | some s => if 0 < trade.strike then some ((s - trade.strike) / trade.strike * 100) else none
    | none => none
  else none

/-- Hard-fail threshold: `tolerances?.minROI` when it is a number, else `0.30`. -/
def hardFailThreshold (tol : Tolerances) : ℚ :=
  match tol.minROI with
  | some r => r
  | none => 0.30

/-- Hard-fail flag: `annualROI < hardFailThreshold`. -/
def hardFail (tol : Tolerances) (trade : Trade) : Bool :=
  decide (annualROI trade < hardFailThreshold tol)

/-- Convex partial-credit factor `heavyPenalty(val, tol)`: full credit within
tolerance, else the clamped squared ratio `(tol/val)^2`. -/
def heavyPenalty (val tol : ℚ) : ℚ :=
  if val ≤ tol then 1
  else
    let ratio : ℚ := if 0 < tol then tol / val else 0
    max 0 (min 1 (ratio * ratio))

/-- Severity contributed to the penalty pool by one exceedance,
`overRatio = value/tolerance`. -/
def addPenaltyFromExceedance (overRatio : ℚ) : ℚ :=
  if overRatio ≤ 1 then 0
  else max 0 (1 - 1 / overRatio)

/-- Running state of the scoring loop: the mutable locals `score`,
`totalPossible`, `penaltyPool` and the growing `breakdown` list. -/
structure ScoringState where
  score : ℚ
  totalPossible : ℚ
  penaltyPool : ℚ
  breakdown : List Part
deriving Repr, DecidableEq

/-- ROI criterion (weight 35), gated on `minROI` being set. -/
def roiStep (tol : Tolerances) (trade : Trade) (s : ScoringState) : ScoringState :=
  match tol.minROI with
  | none => s
  | some minROI =>
    let W : ℚ := 35
    if annualROI trade ≥ minROI then
      { s with
        score := s.score + W
        totalPossible := s.totalPossible + W
        breakdown := s.breakdown ++
          [⟨"roi", "Annual ROI", W, W, some "Meets or exceeds minimum ROI"⟩] }
    else
      let earned : ℚ := max 0 (annualROI trade / minROI * W)
      { s with
        score := s.score + earned
        totalPossible := s.totalPossible + W
        breakdown := s.breakdown ++
          [⟨"roi", "Annual ROI", W, earned,
            some ("Below min ROI (" ++ ratToFixed 1 (annualROI trade * 100) ++
              "% vs " ++ ratToFixed 1 (minROI * 100) ++ "%)")⟩] }

/-- Delta criterion (weight 25), gated on `maxDelta` set and positive. -/
def deltaStep (tol : Tolerances) (trade : Trade) (s : ScoringState) : ScoringState :=
  match tol.maxDelta with
  | none => s
  | some maxDelta =>
    if 0 < maxDelta then
      let W : ℚ := 25
      if trade.delta ≤ maxDelta then
        { s with
          score := s.score + W
          totalPossible := s.totalPossible + W
          breakdown := s.breakdown ++ [⟨"delta", "Delta", W, W, some "Within max delta"⟩] }
      else
        let earned : ℚ := W * heavyPenalty trade.delta maxDelta
        { score := s.score + earned
          totalPossible := s.totalPossible + W
          penaltyPool := s.penaltyPool + addPenaltyFromExceedance (trade.delta / maxDelta)
          breakdown := s.breakdown ++
            [⟨"delta", "Delta", W, earned,
              some ("Exceeds max delta (" ++ ratToFixed 1 (trade.delta * 100) ++
                "% > " ++ ratToFixed 1 (maxDelta * 100) ++ "%)")⟩] }
    else s

/-- DTE criterion (weight 15), gated on `maxDTE` set and positive. -/
def dteStep (tol : Tolerances) (trade : Trade) (s : ScoringState) : ScoringState :=
  match tol.maxDTE with
  | none => s
  | some maxDTE =>
    if 0 < maxDTE then
      let W : ℚ := 15
      if (dte trade : ℚ) ≤ maxDTE then
        { s with
          score := s.score + W
          totalPossible := s.totalPossible + W
          breakdown := s.breakdown ++ [⟨"dte", "DTE", W, W, some "Within max DTE"⟩] }
      else
        let earned : ℚ := W * heavyPenalty (dte trade : ℚ) maxDTE
        { score := s.score + earned
          totalPossible := s.totalPossible + W
          penaltyPool := s.penaltyPool + addPenaltyFromExceedance ((dte trade : ℚ) / maxDTE)
          breakdown := s.breakdown ++
            [⟨"dte", "DTE", W, earned,
              some ("Exceeds max DTE (" ++ toString (dte trade) ++ "d > " ++
                ratToFixed 0 maxDTE ++ "d)")⟩] }
    else s

/-- Beta criterion (weight 5), gated on `maxBeta` set and positive. -/
def betaStep (tol : Tolerances) (trade : Trade) (s : ScoringState) : ScoringState :=
  match tol.maxBeta with
  | none => s
  | some maxBeta =>
    if 0 < maxBeta then
      let W : ℚ := 5
      if trade.beta ≤ maxBeta then
        { s with
          score := s.score + W
          totalPossible := s.totalPossible + W
          breakdown := s.breakdown ++ [⟨"beta", "Beta", W, W, some "Within max beta"⟩] }
      else
        let earned : ℚ := W * heavyPenalty trade.beta maxBeta
        { score := s.score + earned
          totalPossible := s.totalPossible + W
          penaltyPool := s.penaltyPool + addPenaltyFromExceedance (trade.beta / maxBeta)
          breakdown := s.breakdown ++
            [⟨"beta", "Beta", W, earned,
              some ("Exceeds max beta (" ++ ratToFixed 2 trade.beta ++ " > " ++
                ratToFixed 2 maxBeta ++ ")")⟩] }
    else s

/-- Collateral-at-risk criterion (weight 10), always considered. -/
def collateralStep (trade : Trade) (s : ScoringState) : ScoringState :=
  let W : ℚ := 10
  let p : ℚ × String :=
    if collateralAtRisk trade < 20000 then (10, "Low collateral")
    else if collateralAtRisk trade ≤ 50000 then (5, "Moderate collateral")
    else (2, "High collateral")
  { s with
    score := s.score + p.1
    totalPossible := s.totalPossible + W
    breakdown := s.breakdown ++ [⟨"collateral", "Collateral at Risk", W, p.1, some p.2⟩] }

/-- Support-variance criterion (weight 10), only when `supportVariancePct`
was computed. -/
def supportStep (trade : Trade) (s : ScoringState) : ScoringState :=
  match supportVariancePct trade with
  | none => s
  | some v =>
    let W : ℚ := 10
    let p : ℚ × String :=
      if v ≥ 10 then (10, "Strong support buffer (≥10%)")
      else if v ≥ 5 then (5, "Moderate support buffer (5–10%)")
      else (2, "Support variance < 5%")
    { s with
      score := s.score + p.1
      totalPossible := s.totalPossible + W
      breakdown := s.breakdown ++ [⟨"support", "Support Variance %", W, p.1, some p.2⟩] }

/-- The whole non-hard-fail scoring pass, stages run in source order. -/
def runScoring (tol : Tolerances) (trade : Trade) : ScoringState :=
  supportStep trade (collateralStep trade
    (betaStep tol trade (dteStep tol trade (deltaStep tol trade
      (roiStep tol trade ⟨0, 0, 0, []⟩)))))

/-- Cap of the global penalty pool. -/
def maxPenaltyPool : ℚ := 15

/-- Penalty pool accumulated by the scoring pass. -/
def penaltyPool (tol : Tolerances) (trade : Trade) : ℚ :=
  (runScoring tol trade).penaltyPool

/-- Applied penalties: `min(15, 15 * clamp01(penaltyPool))`. -/
def penaltiesApplied (tol : Tolerances) (trade : Trade) : ℚ :=
  min maxPenaltyPool (maxPenaltyPool * max 0 (min 1 (penaltyPool tol trade)))

/-- Points before penalties: the stage-3 `score` accumulator. -/
def pointsBeforePenalties (tol : Tolerances) (trade : Trade) : ℚ :=
  (runScoring tol trade).score

/-- Final points: `max(0, score - penaltiesApplied)`. -/
def pointsFinal (tol : Tolerances) (trade : Trade) : ℚ :=
  max 0 (pointsBeforePenalties tol trade - penaltiesApplied tol trade)

/-- Normalized score: `totalPossible > 0 ? pointsFinal/totalPossible*100 : 100`. -/
def finalScore (tol : Tolerances) (trade : Trade) : ℚ :=
  if 0 < (runScoring tol trade).totalPossible then
    pointsFinal tol trade / (runScoring tol trade).totalPossible * 100
  else 100

/-- Suggestion bands: `≥90 Conservative, ≥70 Neutral, else Aggressive`. -/
def suggestionOf (x : ℚ) : Suggestion :=
  if x ≥ 90 then .Conservative
  else if x ≥ 70 then .Neutral
  else .Aggressive

/-- Evaluation of one trade: the body of the map callback. -/
def evalTrade (tol : Tolerances) (trade : Trade) : EvaluatedTrade :=
  if hardFail tol trade then
    { trade := trade
      premium := premium trade
      breakeven := breakeven trade
      annualROI := roundTo 4 (annualROI trade)
      dte := dte trade
      score := 0
      suggestion := .Aggressive
      collateralAtRisk := collateralAtRisk trade
      supportVariancePct := supportVariancePct trade
      hardFail := true
      breakdown := [⟨"roi-hard-fail", "Annual ROI", 35, 0,
        some ("Hard fail: ROI " ++ ratToFixed 1 (annualROI trade * 100) ++
          "% < " ++ ratToFixed 1 (hardFailThreshold tol * 100) ++ "%")⟩]
      totalPossible := 35
      pointsBeforePenalties := 0
      penaltiesApplied := 0
      pointsFinal := 0 }
  else
    { trade := trade
      premium := premium trade
      breakeven := breakeven trade
      annualROI := roundTo 4 (annualROI trade)
      dte := dte trade
      score := roundTo 1 (finalScore tol trade)
      suggestion := suggestionOf (finalScore tol trade)
      collateralAtRisk := collateralAtRisk trade
      supportVariancePct := supportVariancePct trade
      hardFail := false
      breakdown := (runScoring tol trade).breakdown
      totalPossible := (runScoring tol trade).totalPossible
      pointsBeforePenalties := roundTo 2 (pointsBeforePenalties tol trade)
      penaltiesApplied := roundTo 2 (penaltiesApplied tol trade)
      pointsFinal := roundTo 2 (pointsFinal tol trade) }

/-- Error response the route can produce. -/
structure ErrorBody where
  status : Nat
  error : String
deriving Repr, DecidableEq

/-- The route handler: rejects an absent/non-array (`none`) or empty trades
value with a 400, otherwise maps `evalTrade` over the batch. -/
def handler (tol : Tolerances) (trades : Option (List Trade)) :
    Except ErrorBody (List EvaluatedTrade) :=
  match trades with
  | none => .error ⟨400, "No trades provided"⟩
  | some ts =>
    if ts.length = 0 then .error ⟨400, "No trades provided"⟩
    else .ok (ts.map (evalTrade tol))

/-- Severity one criterion contributes to the penalty pool, following the
spec's wording: `max(0, 1 − 1/(value/tolerance))` when the value strictly
exceeds a set, positive tolerance, `0` otherwise. -/
def claimSev (value : ℚ) (otol : Option ℚ) : ℚ :=
  match otol with
  | none => 0
  | some t => if 0 < t ∧ t < value then max 0 (1 - 1 / (value / t)) else 0

/-- Every breakdown entry earns between `0` and its `max`. -/
def partsOK (l : List Part) : Prop :=
  ∀ p ∈ l, 0 ≤ p.earned ∧ p.earned ≤ p.max

/-- Invariant of the scoring accumulator: the running score is nonnegative,
bounded by the running total, equal to the sum of earned points of the
breakdown so far, and all entries are within their weights. -/
def Inv (s : ScoringState) : Prop :=
  0 ≤ s.score ∧ s.score ≤ s.totalPossible ∧ partsOK s.breakdown ∧
    s.score = (s.breakdown.map Part.earned).sum

/-- Example put from the spec's hard-fail test vector. -/
def exPut100 : Trade := ⟨"ABC", ⟨2024, 1, 1⟩, ⟨2024, 1, 11⟩, .put, 100, 1, none, 1, 0.2⟩

/-- Tolerances with only `minROI = 0.5`. -/
def exTolHalf : Tolerances := ⟨none, some 0.5, none, none⟩

/-- Tolerances with only `minROI = 0.1`. -/
def exTolTenth : Tolerances := ⟨none, some 0.1, none, none⟩

/-- Example high-collateral call (strike 600, one-day holding). -/
def exCall600 : Trade := ⟨"XYZ", ⟨2024, 1, 1⟩, ⟨2024, 1, 2⟩, .call, 600, 1, none, 1, 0.3⟩

/-- Empty tolerances object. -/
def exTolEmpty : Tolerances := ⟨none, none, none, none⟩

/-- Example call with delta 0.6 (strike 10, one-day holding). -/
def exCall10 : Trade := ⟨"DEF", ⟨2024, 1, 1⟩, ⟨2024, 1, 2⟩, .call, 10, 1, none, 1, 0.6⟩

/-- Tolerances with only `maxDelta = 0.3`. -/
def exTolDelta : Tolerances := ⟨none, none, none, some 0.3⟩

lemma roundTo_intCast (f : Nat) (n : ℤ) : roundTo f ((n : ℚ)) = n := by
  unfold roundTo
  have h : (n : ℚ) * 10 ^ f + 1 / 2 = ((n * 10 ^ f : ℤ) : ℚ) + 1 / 2 := by
    push_cast; ring
  rw [h, add_comm, Int.floor_add_int]
  have h2 : ⌊(1 / 2 : ℚ)⌋ = 0 := by norm_num
  rw [h2, zero_add]
  push_cast
  exact mul_div_cancel_right₀ _ (by positivity)

lemma roundTo_mono (f : Nat) {x y : ℚ} (h : x ≤ y) : roundTo f x ≤ roundTo f y := by
  unfold roundTo
  have hf : ⌊x * 10 ^ f + 1 / 2⌋ ≤ ⌊y * 10 ^ f + 1 / 2⌋ := by
    apply Int.floor_mono
    have : x * 10 ^ f ≤ y * 10 ^ f := by
      apply mul_le_mul_of_nonneg_right h (by positivity)
    linarith
  have hq : ((⌊x * 10 ^ f + 1 / 2⌋ : ℤ) : ℚ) ≤ ((⌊y * 10 ^ f + 1 / 2⌋ : ℤ) : ℚ) := by
    exact_mod_cast hf
  gcongr

lemma roundTo_nonneg (f : Nat) {x : ℚ} (h : 0 ≤ x) : 0 ≤ roundTo f x := by
  have h0 : roundTo f ((0 : ℤ) : ℚ) = ((0 : ℤ) : ℚ) := by
    rw [roundTo_intCast]
  have := roundTo_mono f (by simpa using h : ((0 : ℤ) : ℚ) ≤ x)
  rw [h0] at this
  simpa using this

lemma roundTo_le_100 (f : Nat) {x : ℚ} (h : x ≤ 100) : roundTo f x ≤ 100 := by
  have h0 : roundTo f ((100 : ℤ) : ℚ) = ((100 : ℤ) : ℚ) := by
    rw [roundTo_intCast]
  have := roundTo_mono f (by simpa using h : x ≤ ((100 : ℤ) : ℚ))
  rw [h0] at this
  simpa using this

lemma heavyPenalty_nonneg (v t : ℚ) : 0 ≤ heavyPenalty v t := by
  unfold heavyPenalty
  split
  · norm_num
  · exact le_max_left 0 _

lemma heavyPenalty_le_one (v t : ℚ) : heavyPenalty v t ≤ 1 := by
  unfold heavyPenalty
  split
  · exact le_refl 1
  · exact max_le (by norm_num) (min_le_left 1 _)

lemma addPenaltyFromExceedance_nonneg (r : ℚ) : 0 ≤ addPenaltyFromExceedance r := by
  unfold addPenaltyFromExceedance
  split
  · norm_num
  · exact le_max_left 0 _

lemma inv_append {s : ScoringState} {key label : String} {m e : ℚ} {note : Option String}
    {pool : ℚ} (h : Inv s) (he : 0 ≤ e) (hm : e ≤ m) :
    Inv ⟨s.score + e, s.totalPossible + m, pool, s.breakdown ++ [⟨key, label, m, e, note⟩]⟩ := by
  obtain ⟨h1, h2, h3, h4⟩ := h
  refine ⟨?_, ?_, ?_, ?_⟩
  · show 0 ≤ s.score + e
    linarith
  · show s.score + e ≤ s.totalPossible + m
    linarith
  · intro p hp
    rcases List.mem_append.mp hp with hp | hp
    · exact h3 p hp
    · simp only [List.mem_singleton] at hp
      subst hp
      exact ⟨he, hm⟩
  · show s.score + e = _
    simp [h4]

lemma inv_init : Inv ⟨0, 0, 0, []⟩ := by
  refine ⟨le_refl 0, le_refl 0, ?_, by simp⟩
  intro p hp
  simp at hp

lemma hardFail_false_iff (tol : Tolerances) (trade : Trade) :
    hardFail tol trade = false ↔ hardFailThreshold tol ≤ annualROI trade := by
  unfold hardFail
  rw [decide_eq_false_iff_not, not_lt]

lemma hardFailThreshold_of_minROI {tol : Tolerances} {m : ℚ} (h : tol.minROI = some m) :
    hardFailThreshold tol = m := by
  unfold hardFailThreshold
  rw [h]

lemma roiStep_of_hardFail_false {tol : Tolerances} {trade : Trade} {m : ℚ}
    (htol : tol.minROI = some m) (hf : hardFail tol trade = false) (s : ScoringState) :
    roiStep tol trade s =
      ⟨s.score + 35, s.totalPossible + 35, s.penaltyPool,
        s.breakdown ++ [⟨"roi", "Annual ROI", 35, 35, some "Meets or exceeds minimum ROI"⟩]⟩ := by
  have hge : annualROI trade ≥ m := by
    have := (hardFail_false_iff tol trade).mp hf
    rwa [hardFailThreshold_of_minROI htol] at this
  unfold roiStep
  rw [htol]
  simp only [ge_iff_le, if_pos hge]

lemma roiStep_inv {tol : Tolerances} {trade : Trade} (hf : hardFail tol trade = false)
    {s : ScoringState} (h : Inv s) : Inv (roiStep tol trade s) := by
  cases htol : tol.minROI with
  | none =>
    unfold roiStep
    rw [htol]
    exact h
  | some m =>
    rw [roiStep_of_hardFail_false htol hf]
    exact inv_append h (by norm_num) (by norm_num)

lemma deltaStep_inv (tol : Tolerances) (trade : Trade) {s : ScoringState} (h : Inv s) :
    Inv (deltaStep tol trade s) := by
  unfold deltaStep
  cases htol : tol.maxDelta with
  | none => exact h
  | some t =>
    by_cases h1 : 0 < t
    · by_cases h2 : trade.delta ≤ t
      · simp only [if_pos h1, if_pos h2]
        exact inv_append h (by norm_num) (by norm_num)
      · simp only [if_pos h1, if_neg h2]
        exact inv_append h (mul_nonneg (by norm_num) (heavyPenalty_nonneg _ _))
          (mul_le_of_le_one_right (by norm_num) (heavyPenalty_le_one _ _))
    · simp only [if_neg h1]
      exact h

lemma dteStep_inv (tol : Tolerances) (trade : Trade) {s : ScoringState} (h : Inv s) :
    Inv (dteStep tol trade s) := by
  unfold dteStep
  cases htol : tol.maxDTE with
  | none => exact h
  | some t =>
    by_cases h1 : 0 < t
    · by_cases h2 : (dte trade : ℚ) ≤ t
      · simp only [if_pos h1, if_pos h2]
        exact inv_append h (by norm_num) (by norm_num)
      · simp only [if_pos h1, if_neg h2]
        exact inv_append h (mul_nonneg (by norm_num) (heavyPenalty_nonneg _ _))
          (mul_le_of_le_one_right (by norm_num) (heavyPenalty_le_one _ _))
    · simp only [if_neg h1]
      exact h

lemma betaStep_inv (tol : Tolerances) (trade : Trade) {s : ScoringState} (h : Inv s) :
    Inv (betaStep tol trade s) := by
  unfold betaStep
  cases htol : tol.maxBeta with
  | none => exact h
  | some t =>
    by_cases h1 : 0 < t
    · by_cases h2 : trade.beta ≤ t
      · simp only [if_pos h1, if_pos h2]
        exact inv_append h (by norm_num) (by norm_num)
      · simp only [if_pos h1, if_neg h2]
        exact inv_append h (mul_nonneg (by norm_num) (heavyPenalty_nonneg _ _))
          (mul_le_of_le_one_right (by norm_num) (heavyPenalty_le_one _ _))
    · simp only [if_neg h1]
      exact h

lemma collateralStep_inv (trade : Trade) {s : ScoringState} (h : Inv s) :
    Inv (collateralStep trade s) := by
  unfold collateralStep
  by_cases h1 : collateralAtRisk trade < 20000
  · simp only [if_pos h1]
    exact inv_append h (by norm_num) (by norm_num)
  · by_cases h2 : collateralAtRisk trade ≤ 50000
    · simp only [if_neg h1, if_pos h2]
      exact inv_append h (by norm_num) (by norm_num)
    · simp only [if_neg h1, if_neg h2]
      exact inv_append h (by norm_num) (by norm_num)

lemma supportStep_inv (trade : Trade) {s : ScoringState} (h : Inv s) :
    Inv (supportStep trade s) := by
  unfold supportStep
  cases hv : supportVariancePct trade with
  | none => exact h
  | some v =>
    by_cases h1 : v ≥ 10
    · simp only [if_pos h1]
      exact inv_append h (by norm_num) (by norm_num)
    · by_cases h2 : v ≥ 5
      · simp only [if_neg h1, if_pos h2]
        exact inv_append h (by norm_num) (by norm_num)
      · simp only [if_neg h1, if_neg h2]
        exact inv_append h (by norm_num) (by norm_num)

lemma runScoring_inv (tol : Tolerances) (trade : Trade) (hf : hardFail tol trade = false) :
    Inv (runScoring tol trade) := by
  unfold runScoring
  exact supportStep_inv trade (collateralStep_inv trade (betaStep_inv tol trade
    (dteStep_inv tol trade (deltaStep_inv tol trade (roiStep_inv hf inv_init)))))

lemma collateralStep_totalPossible (trade : Trade) (s : ScoringState) :
    (collateralStep trade s).totalPossible = s.totalPossible + 10 := by
  unfold collateralStep
  split_ifs <;> rfl

lemma supportStep_totalPossible (trade : Trade) (s : ScoringState) :
    s.totalPossible ≤ (supportStep trade s).totalPossible := by
  unfold supportStep
  cases supportVariancePct trade with
  | none => exact le_refl _
  | some v =>
    show s.totalPossible ≤ s.totalPossible + 10
    linarith

lemma runScoring_totalPossible (tol : Tolerances) (trade : Trade)
    (hf : hardFail tol trade = false) : 10 ≤ (runScoring tol trade).totalPossible := by
  have h4 : Inv (betaStep tol trade (dteStep tol trade (deltaStep tol trade
      (roiStep tol trade ⟨0, 0, 0, []⟩)))) :=
    betaStep_inv tol trade (dteStep_inv tol trade (deltaStep_inv tol trade
      (roiStep_inv hf inv_init)))
  have h0 : (0 : ℚ) ≤ (betaStep tol trade (dteStep tol trade (deltaStep tol trade
      (roiStep tol trade ⟨0, 0, 0, []⟩)))).totalPossible := le_trans h4.1 h4.2.1
  have hc := collateralStep_totalPossible trade (betaStep tol trade (dteStep tol trade
    (deltaStep tol trade (roiStep tol trade ⟨0, 0, 0, []⟩))))
  have hs := supportStep_totalPossible trade (collateralStep trade (betaStep tol trade
    (dteStep tol trade (deltaStep tol trade (roiStep tol trade ⟨0, 0, 0, []⟩)))))
  unfold runScoring
  linarith

lemma roiStep_pool (tol : Tolerances) (trade : Trade) (s : ScoringState) :
    (roiStep tol trade s).penaltyPool = s.penaltyPool := by
  unfold roiStep
  cases tol.minROI with
  | none => rfl
  | some m =>
    dsimp only
    split_ifs <;> rfl

lemma deltaStep_pool (tol : Tolerances) (trade : Trade) (s : ScoringState) :
    (deltaStep tol trade s).penaltyPool = s.penaltyPool + claimSev trade.delta tol.maxDelta := by
  unfold deltaStep claimSev
  cases tol.maxDelta with
  | none => simp
  | some t =>
    by_cases h1 : 0 < t
    · by_cases h2 : trade.delta ≤ t
      · have h3 : ¬ (0 < t ∧ t < trade.delta) := by
          rintro ⟨-, h⟩
          exact absurd h2 (not_le.mpr h)
        simp only [if_pos h1, if_pos h2, if_neg h3]
        show s.penaltyPool = s.penaltyPool + 0
        ring
      · have h3 : t < trade.delta := not_le.mp h2
        have h4 : ¬ (trade.delta / t ≤ 1) :=
          not_le.mpr ((one_lt_div h1).mpr h3)
        simp only [if_pos h1, if_neg h2, if_pos (And.intro h1 h3)]
        show s.penaltyPool + addPenaltyFromExceedance (trade.delta / t) = _
        unfold addPenaltyFromExceedance
        rw [if_neg h4]
    · have h3 : ¬ (0 < t ∧ t < trade.delta) := by
        rintro ⟨h, -⟩
        exact h1 h
      simp only [if_neg h1, if_neg h3]
      show s.penaltyPool = s.penaltyPool + 0
      ring

lemma dteStep_pool (tol : Tolerances) (trade : Trade) (s : ScoringState) :
    (dteStep tol trade s).penaltyPool = s.penaltyPool + claimSev (dte trade : ℚ) tol.maxDTE := by
  unfold dteStep claimSev
  cases tol.maxDTE with
  | none => simp
  | some t =>
    by_cases h1 : 0 < t
    · by_cases h2 : (dte trade : ℚ) ≤ t
      · have h3 : ¬ (0 < t ∧ t < (dte trade : ℚ)) := by
          rintro ⟨-, h⟩
          exact absurd h2 (not_le.mpr h)
        simp only [if_pos h1, if_pos h2, if_neg h3]
        show s.penaltyPool = s.penaltyPool + 0
        ring
      · have h3 : t < (dte trade : ℚ) := not_le.mp h2
        have h4 : ¬ ((dte trade : ℚ) / t ≤ 1) :=
          not_le.mpr ((one_lt_div h1).mpr h3)
        simp only [if_pos h1, if_neg h2, if_pos (And.intro h1 h3)]
        show s.penaltyPool + addPenaltyFromExceedance ((dte trade : ℚ) / t) = _
        unfold addPenaltyFromExceedance
        rw [if_neg h4]
    · have h3 : ¬ (0 < t ∧ t < (dte trade : ℚ)) := by
        rintro ⟨h, -⟩
        exact h1 h
      simp only [if_neg h1, if_neg h3]
      show s.penaltyPool = s.penaltyPool + 0
      ring

lemma betaStep_pool (tol : Tolerances) (trade : Trade) (s : ScoringState) :
    (betaStep tol trade s).penaltyPool = s.penaltyPool + claimSev trade.beta tol.maxBeta := by
  unfold betaStep claimSev
  cases tol.maxBeta with
  | none => simp
  | some t =>
    by_cases h1 : 0 < t
    · by_cases h2 : trade.beta ≤ t
      · have h3 : ¬ (0 < t ∧ t < trade.beta) := by
          rintro ⟨-, h⟩
          exact absurd h2 (not_le.mpr h)
        simp only [if_pos h1, if_pos h2, if_neg h3]
        show s.penaltyPool = s.penaltyPool + 0
        ring
      · have h3 : t < trade.beta := not_le.mp h2
        have h4 : ¬ (trade.beta / t ≤ 1) :=
          not_le.mpr ((one_lt_div h1).mpr h3)
        simp only [if_pos h1, if_neg h2, if_pos (And.intro h1 h3)]
        show s.penaltyPool + addPenaltyFromExceedance (trade.beta / t) = _
        unfold addPenaltyFromExceedance
        rw [if_neg h4]
    · have h3 : ¬ (0 < t ∧ t < trade.beta) := by
        rintro ⟨h, -⟩
        exact h1 h
      simp only [if_neg h1, if_neg h3]
      show s.penaltyPool = s.penaltyPool + 0
      ring

lemma collateralStep_pool (trade : Trade) (s : ScoringState) :
    (collateralStep trade s).penaltyPool = s.penaltyPool := by
  unfold collateralStep
  split_ifs <;> rfl

lemma supportStep_pool (trade : Trade) (s : ScoringState) :
    (supportStep trade s).penaltyPool = s.penaltyPool := by
  unfold supportStep
  cases supportVariancePct trade with
  | none => rfl
  | some v => rfl

lemma penaltyPool_eq (tol : Tolerances) (trade : Trade) :
    penaltyPool tol trade =
      claimSev trade.delta tol.maxDelta + claimSev (dte trade : ℚ) tol.maxDTE +
        claimSev trade.beta tol.maxBeta := by
  unfold penaltyPool runScoring
  rw [supportStep_pool, collateralStep_pool, betaStep_pool, dteStep_pool, deltaStep_pool,
    roiStep_pool]
  show (0 : ℚ) + _ + _ + _ = _
  ring

lemma deltaStep_breakdown (tol : Tolerances) (trade : Trade) (s : ScoringState) :
    ∃ l, (deltaStep tol trade s).breakdown = s.breakdown ++ l := by
  unfold deltaStep
  cases tol.maxDelta with
  | none => exact ⟨[], (List.append_nil _).symm⟩
  | some t =>
    dsimp only
    split_ifs
    · exact ⟨_, rfl⟩
    · exact ⟨_, rfl⟩
    · exact ⟨[], (List.append_nil _).symm⟩

lemma dteStep_breakdown (tol : Tolerances) (trade : Trade) (s : ScoringState) :
    ∃ l, (dteStep tol trade s).breakdown = s.breakdown ++ l := by
  unfold dteStep
  cases tol.maxDTE with
  | none => exact ⟨[], (List.append_nil _).symm⟩
  | some t =>
    dsimp only
    split_ifs
    · exact ⟨_, rfl⟩
    · exact ⟨_, rfl⟩
    · exact ⟨[], (List.append_nil _).symm⟩

lemma betaStep_breakdown (tol : Tolerances) (trade : Trade) (s : ScoringState) :
    ∃ l, (betaStep tol trade s).breakdown = s.breakdown ++ l := by
  unfold betaStep
  cases tol.maxBeta with
  | none => exact ⟨[], (List.append_nil _).symm⟩
  | some t =>
    dsimp only
    split_ifs
    · exact ⟨_, rfl⟩
    · exact ⟨_, rfl⟩
    · exact ⟨[], (List.append_nil _).symm⟩

lemma collateralStep_breakdown (trade : Trade) (s : ScoringState) :
    ∃ l, (collateralStep trade s).breakdown = s.breakdown ++ l := by
  unfold collateralStep
  exact ⟨_, rfl⟩

lemma supportStep_breakdown (trade : Trade) (s : ScoringState) :
    ∃ l, (supportStep trade s).breakdown = s.breakdown ++ l := by
  unfold supportStep
  cases supportVariancePct trade with
  | none => exact ⟨[], (List.append_nil _).symm⟩
  | some v => exact ⟨_, rfl⟩

lemma runScoring_breakdown_head {tol : Tolerances} {trade : Trade} {m : ℚ}
    (htol : tol.minROI = some m) (hf : hardFail tol trade = false) :
    ∃ l, (runScoring tol trade).breakdown =
      ⟨"roi", "Annual ROI", 35, 35, some "Meets or exceeds minimum ROI"⟩ :: l := by
  unfold runScoring
  rw [roiStep_of_hardFail_false htol hf]
  obtain ⟨l1, h1⟩ := deltaStep_breakdown tol trade
    ⟨0 + 35, 0 + 35, 0, [] ++ [⟨"roi", "Annual ROI", 35, 35, some "Meets or exceeds minimum ROI"⟩]⟩
  obtain ⟨l2, h2⟩ := dteStep_breakdown tol trade (deltaStep tol trade
    ⟨0 + 35, 0 + 35, 0, [] ++ [⟨"roi", "Annual ROI", 35, 35, some "Meets or exceeds minimum ROI"⟩]⟩)
  obtain ⟨l3, h3⟩ := betaStep_breakdown tol trade (dteStep tol trade (deltaStep tol trade
    ⟨0 + 35, 0 + 35, 0, [] ++ [⟨"roi", "Annual ROI", 35, 35, some "Meets or exceeds minimum ROI"⟩]⟩))
  obtain ⟨l4, h4⟩ := collateralStep_breakdown trade (betaStep tol trade (dteStep tol trade
    (deltaStep tol trade
      ⟨0 + 35, 0 + 35, 0, [] ++ [⟨"roi", "Annual ROI", 35, 35, some "Meets or exceeds minimum ROI"⟩]⟩)))
  obtain ⟨l5, h5⟩ := supportStep_breakdown trade (collateralStep trade (betaStep tol trade
    (dteStep tol trade (deltaStep tol trade
      ⟨0 + 35, 0 + 35, 0, [] ++ [⟨"roi", "Annual ROI", 35, 35, some "Meets or exceeds minimum ROI"⟩]⟩))))
  rw [h5, h4, h3, h2, h1]
  exact ⟨l1 ++ l2 ++ l3 ++ l4 ++ l5, by simp⟩

lemma penaltiesApplied_nonneg (tol : Tolerances) (trade : Trade) :
    0 ≤ penaltiesApplied tol trade := by
  unfold penaltiesApplied maxPenaltyPool
  have h : (0 : ℚ) ≤ 15 * max 0 (min 1 (penaltyPool tol trade)) := by positivity
  exact le_min (by norm_num) h

lemma pointsFinal_nonneg (tol : Tolerances) (trade : Trade) :
    0 ≤ pointsFinal tol trade := le_max_left 0 _

lemma pointsFinal_le (tol : Tolerances) (trade : Trade)
    (h : 0 ≤ pointsBeforePenalties tol trade) :
    pointsFinal tol trade ≤ pointsBeforePenalties tol trade := by
  unfold pointsFinal
  exact max_le h (sub_le_self _ (penaltiesApplied_nonneg tol trade))

lemma finalScore_bounds (tol : Tolerances) (trade : Trade)
    (hf : hardFail tol trade = false) :
    0 ≤ finalScore tol trade ∧ finalScore tol trade ≤ 100 := by
  have hInv := runScoring_inv tol trade hf
  have htp := runScoring_totalPossible tol trade hf
  have htp0 : (0 : ℚ) < (runScoring tol trade).totalPossible := by linarith
  have hpf0 : 0 ≤ pointsFinal tol trade := pointsFinal_nonneg tol trade
  have hpf1 : pointsFinal tol trade ≤ (runScoring tol trade).totalPossible :=
    le_trans (pointsFinal_le tol trade hInv.1) hInv.2.1
  unfold finalScore
  rw [if_pos htp0]
  constructor
  · positivity
  · calc pointsFinal tol trade / (runScoring tol trade).totalPossible * 100
        ≤ 1 * 100 := by
          apply mul_le_mul_of_nonneg_right _ (by norm_num)
          exact (div_le_one htp0).mpr hpf1
    _ = 100 := by norm_num

lemma runScoring_emptyTol (trade : Trade) (hs : supportVariancePct trade = none) :
    runScoring exTolEmpty trade = collateralStep trade ⟨0, 0, 0, []⟩ := by
  unfold runScoring roiStep deltaStep dteStep betaStep supportStep
  simp [exTolEmpty, hs]

lemma finalScore_emptyTol (trade : Trade) (hs : supportVariancePct trade = none) :
    finalScore exTolEmpty trade =
      (if collateralAtRisk trade < 20000 then 100
        else if collateralAtRisk trade ≤ 50000 then 50 else 20) := by
  unfold finalScore pointsFinal pointsBeforePenalties penaltiesApplied penaltyPool maxPenaltyPool
  rw [runScoring_emptyTol trade hs]
  unfold collateralStep
  dsimp only
  split_ifs <;> norm_num at *

lemma roundTo_one_100 : roundTo 1 (100 : ℚ) = 100 := by
  simpa using roundTo_intCast 1 100

lemma roundTo_one_50 : roundTo 1 (50 : ℚ) = 50 := by
  simpa using roundTo_intCast 1 50

lemma roundTo_one_20 : roundTo 1 (20 : ℚ) = 20 := by
  simpa using roundTo_intCast 1 20

lemma score_emptyTol (trade : Trade) (hf : hardFail exTolEmpty trade = false)
    (hs : supportVariancePct trade = none) :
    (evalTrade exTolEmpty trade).score =
      (if collateralAtRisk trade < 20000 then 100
        else if collateralAtRisk trade ≤ 50000 then 50 else 20) := by
  have hsc : (evalTrade exTolEmpty trade).score = roundTo 1 (finalScore exTolEmpty trade) := by
    simp [evalTrade, hf]
  rw [hsc, finalScore_emptyTol trade hs]
  split_ifs
  · exact roundTo_one_100
  · exact roundTo_one_50
  · exact roundTo_one_20

lemma suggestion_emptyTol (trade : Trade) (hf : hardFail exTolEmpty trade = false)
    (hs : supportVariancePct trade = none) :
    (evalTrade exTolEmpty trade).suggestion =
      (if collateralAtRisk trade < 20000 then Suggestion.Conservative
        else Suggestion.Aggressive) := by
  have hsu : (evalTrade exTolEmpty trade).suggestion =
      suggestionOf (finalScore exTolEmpty trade) := by
    simp [evalTrade, hf]
  rw [hsu, finalScore_emptyTol trade hs]
  unfold suggestionOf
  split_ifs <;> first | rfl | norm_num at *

lemma dte_exPut100 : dte exPut100 = 10 := by
  simp [dte, exPut100, Date.getTime, Date.toEpochDays, Int.fdiv]
  norm_num

lemma annualROI_exPut100 : annualROI exPut100 = 73 / 200 := by
  rw [annualROI, dte_exPut100]
  norm_num [exPut100]

lemma dte_exCall600 : dte exCall600 = 1 := by
  simp [dte, exCall600, Date.getTime, Date.toEpochDays, Int.fdiv]
  norm_num

lemma annualROI_exCall600 : annualROI exCall600 = 73 / 120 := by
  rw [annualROI, dte_exCall600]
  norm_num [exCall600]

lemma dte_exCall10 : dte exCall10 = 1 := by
  simp [dte, exCall10, Date.getTime, Date.toEpochDays, Int.fdiv]
  norm_num

lemma annualROI_exCall10 : annualROI exCall10 = 73 / 2 := by
  rw [annualROI, dte_exCall10]
  norm_num [exCall10]

lemma hardFail_exTolTenth_exPut100 : hardFail exTolTenth exPut100 = false := by
  rw [hardFail_false_iff, hardFailThreshold_of_minROI (rfl : exTolTenth.minROI = some 0.1),
    annualROI_exPut100]
  norm_num

lemma hardFail_exTolEmpty_exCall600 : hardFail exTolEmpty exCall600 = false := by
  rw [hardFail_false_iff, annualROI_exCall600]
  show (0.30 : ℚ) ≤ 73 / 120
  norm_num

lemma hardFail_exTolDelta_exCall10 : hardFail exTolDelta exCall10 = false := by
  rw [hardFail_false_iff, annualROI_exCall10]
  show (0.30 : ℚ) ≤ 73 / 2
  norm_num

lemma supportVariancePct_exCall600 : supportVariancePct exCall600 = none := by
  simp [supportVariancePct, exCall600]

/-- C1: any trade whose annualized ROI is strictly below the hard-fail
threshold (minROI when set, else 0.30) is returned hard-failed with score 0,
suggestion Aggressive, totalPossible 35, a zeroed penalty ledger, and a
breakdown holding exactly the single `roi-hard-fail` component with max 35
and earned 0. -/
theorem spec_C1 (tol : Tolerances) (trade : Trade)
    (h : annualROI trade < hardFailThreshold tol) :
    (evalTrade tol trade).hardFail = true ∧
    (evalTrade tol trade).score = 0 ∧
    (evalTrade tol trade).suggestion = Suggestion.Aggressive ∧
    (evalTrade tol trade).totalPossible = 35 ∧
    (evalTrade tol trade).pointsBeforePenalties = 0 ∧
    (evalTrade tol trade).penaltiesApplied = 0 ∧
    (evalTrade tol trade).pointsFinal = 0 ∧
    (evalTrade tol trade).breakdown.map (fun p => (p.key, p.max, p.earned)) =
      [("roi-hard-fail", (35 : ℚ), (0 : ℚ))] := by
  have hb : hardFail tol trade = true := by
    unfold hardFail
    exact decide_eq_true h
  simp [evalTrade, hb]

theorem spec_C1_witness :
    annualROI exPut100 < hardFailThreshold exTolHalf ∧
      (evalTrade exTolHalf exPut100).score = 0 ∧
      (evalTrade exTolHalf exPut100).totalPossible = 35 := by
  have h : annualROI exPut100 < hardFailThreshold exTolHalf := by
    rw [annualROI_exPut100, hardFailThreshold_of_minROI (rfl : exTolHalf.minROI = some 0.5)]
    norm_num
  exact ⟨h, (spec_C1 exTolHalf exPut100 h).2.1, (spec_C1 exTolHalf exPut100 h).2.2.2.1⟩

/-- C2 counterexample: with a tolerances object in which no tolerance field is
set, the high-collateral call `exCall600` is not hard-failed yet scores 20,
refuting "the returned score equals 100". -/
theorem spec_C2_counterexample :
    exTolEmpty.maxDTE = none ∧ exTolEmpty.minROI = none ∧ exTolEmpty.maxBeta = none ∧
      exTolEmpty.maxDelta = none ∧ (evalTrade exTolEmpty exCall600).hardFail = false ∧
      (evalTrade exTolEmpty exCall600).score = 20 ∧
      (evalTrade exTolEmpty exCall600).score ≠ 100 := by
  have hf : hardFail exTolEmpty exCall600 = false := hardFail_exTolEmpty_exCall600
  have hsc := score_emptyTol exCall600 hf supportVariancePct_exCall600
  have hcol : collateralAtRisk exCall600 = 60000 := by
    norm_num [collateralAtRisk, exCall600]
  rw [hcol] at hsc
  norm_num at hsc
  have hhf : (evalTrade exTolEmpty exCall600).hardFail = false := by
    simp [evalTrade, hf]
  refine ⟨rfl, rfl, rfl, rfl, hhf, hsc, ?_⟩
  rw [hsc]
  norm_num

/-- C2 (amended): with no tolerance field set, a non-hard-failed trade with no
applicable support variance scores exactly its collateral tier percentage
(100 / 50 / 20) — not always 100 — and the suggestion follows from the
≥90/≥70 buckets applied to that score. -/
theorem spec_C2_amended (trade : Trade) (hf : hardFail exTolEmpty trade = false)
    (hs : supportVariancePct trade = none) :
    (evalTrade exTolEmpty trade).score =
        (if collateralAtRisk trade < 20000 then 100
          else if collateralAtRisk trade ≤ 50000 then 50 else 20) ∧
      (evalTrade exTolEmpty trade).suggestion =
        (if 90 ≤ (evalTrade exTolEmpty trade).score then Suggestion.Conservative
          else if 70 ≤ (evalTrade exTolEmpty trade).score then Suggestion.Neutral
          else Suggestion.Aggressive) := by
  have hsc := score_emptyTol trade hf hs
  have hsu := suggestion_emptyTol trade hf hs
  refine ⟨hsc, ?_⟩
  rw [hsu, hsc]
  split_ifs with h1 h2 h3 <;> first | rfl | norm_num at *

theorem spec_C2_witness :
    hardFail exTolEmpty exCall600 = false ∧ supportVariancePct exCall600 = none ∧
      (evalTrade exTolEmpty exCall600).suggestion = Suggestion.Aggressive := by
  have hf : hardFail exTolEmpty exCall600 = false := hardFail_exTolEmpty_exCall600
  have hs : supportVariancePct exCall600 = none := supportVariancePct_exCall600
  have h := (spec_C2_amended exCall600 hf hs).2
  have hsc := (spec_C2_amended exCall600 hf hs).1
  have hcol : collateralAtRisk exCall600 = 60000 := by
    norm_num [collateralAtRisk, exCall600]
  rw [hcol] at hsc
  norm_num at hsc
  rw [hsc] at h
  norm_num at h
  exact ⟨hf, hs, h⟩

/-- C3: every breakdown component earns between 0 and its max, the returned
score lies in [0, 100], and final points never exceed the pre-penalty
points. -/
theorem spec_C3 (tol : Tolerances) (trade : Trade) :
    (∀ p ∈ (evalTrade tol trade).breakdown, 0 ≤ p.earned ∧ p.earned ≤ p.max) ∧
      0 ≤ (evalTrade tol trade).score ∧ (evalTrade tol trade).score ≤ 100 ∧
      (evalTrade tol trade).pointsFinal ≤ (evalTrade tol trade).pointsBeforePenalties := by
  cases hb : hardFail tol trade with
  | true =>
    refine ⟨?_, ?_, ?_, ?_⟩ <;> simp [evalTrade, hb]
  | false =>
    have hInv := runScoring_inv tol trade hb
    have hfs := finalScore_bounds tol trade hb
    refine ⟨?_, ?_, ?_, ?_⟩
    · intro p hp
      simp only [evalTrade, hb, Bool.false_eq_true, if_false] at hp
      exact hInv.2.2.1 p hp
    · simp only [evalTrade, hb, Bool.false_eq_true, if_false]
      exact roundTo_nonneg 1 hfs.1
    · simp only [evalTrade, hb, Bool.false_eq_true, if_false]
      exact roundTo_le_100 1 hfs.2
    · simp only [evalTrade, hb, Bool.false_eq_true, if_false]
      exact roundTo_mono 2 (pointsFinal_le tol trade hInv.1)

/-- C4: on the non-hard-fail path the penalty pool is exactly the sum of the
severities `max(0, 1 − 1/(value/tolerance))` of the delta, DTE and beta
criteria that strictly exceed their set, positive tolerances; the applied
penalty is `min(15, 15·clamp01(pool))`, the pre-penalty points are the sum of
earned points of the stage-3 breakdown, and the final points are
`max(0, pointsBeforePenalties − penaltiesApplied)`. -/
theorem spec_C4 (tol : Tolerances) (trade : Trade) (h : hardFail tol trade = false) :
    penaltyPool tol trade =
        claimSev trade.delta tol.maxDelta + claimSev (dte trade : ℚ) tol.maxDTE +
          claimSev trade.beta tol.maxBeta ∧
      penaltiesApplied tol trade =
        min 15 (15 * max 0 (min 1 (penaltyPool tol trade))) ∧
      pointsBeforePenalties tol trade =
        ((runScoring tol trade).breakdown.map Part.earned).sum ∧
      pointsFinal tol trade =
        max 0 (pointsBeforePenalties tol trade - penaltiesApplied tol trade) := by
  refine ⟨penaltyPool_eq tol trade, rfl, ?_, rfl⟩
  exact (runScoring_inv tol trade h).2.2.2

theorem spec_C4_witness :
    hardFail exTolDelta exCall10 = false ∧
      penaltyPool exTolDelta exCall10 =
        claimSev exCall10.delta exTolDelta.maxDelta +
          claimSev (dte exCall10 : ℚ) exTolDelta.maxDTE +
          claimSev exCall10.beta exTolDelta.maxBeta := by
  exact ⟨hardFail_exTolDelta_exCall10,
    (spec_C4 exTolDelta exCall10 hardFail_exTolDelta_exCall10).1⟩

/-- C5: the partial-credit factor equals 1 within tolerance and the clamped
inverse-square `clamp01((tolerance/value)²)` beyond it (for positive
tolerances), and a delta of 0.6 against maxDelta 0.3 earns
`25 × 0.25 = 6.25` points in the delta component. -/
theorem spec_C5 :
    (∀ v t : ℚ, 0 < t →
        heavyPenalty v t = if v ≤ t then 1 else max 0 (min 1 ((t / v) ^ 2))) ∧
      25 * heavyPenalty (0.6 : ℚ) 0.3 = 6.25 ∧
      (evalTrade exTolDelta exCall10).breakdown.map (fun p => (p.key, p.earned)) =
        [("delta", (6.25 : ℚ)), ("collateral", (10 : ℚ))] := by
  refine ⟨?_, ?_, ?_⟩
  · intro v t ht
    unfold heavyPenalty
    split_ifs with h1
    · rfl
    · dsimp only
      rw [pow_two]
  · unfold heavyPenalty
    norm_num
  · have hf : hardFail exTolDelta exCall10 = false := hardFail_exTolDelta_exCall10
    simp only [evalTrade, hf, Bool.false_eq_true, if_false]
    norm_num [runScoring, roiStep, deltaStep, dteStep, betaStep, collateralStep, supportStep,
      exTolDelta, exCall10, supportVariancePct, collateralAtRisk, heavyPenalty]

theorem spec_C5_witness :
    (0 : ℚ) < 0.3 ∧
      heavyPenalty (0.6 : ℚ) 0.3 =
        (if (0.6 : ℚ) ≤ 0.3 then 1 else max 0 (min 1 (((0.3 : ℚ) / 0.6) ^ 2))) := by
  exact ⟨by norm_num, spec_C5.1 0.6 0.3 (by norm_num)⟩

/-- C6: the handler answers 400 "No trades provided" exactly when the trades
value is absent/not an array (`none`) or the empty array, and for every
non-empty batch returns the evaluated batch. -/
theorem spec_C6 (tol : Tolerances) :
    (∀ trades : Option (List Trade),
        handler tol trades = Except.error ⟨400, "No trades provided"⟩ ↔
          trades = none ∨ trades = some []) ∧
      ∀ ts : List Trade, ts ≠ [] →
        handler tol (some ts) = Except.ok (ts.map (evalTrade tol)) := by
  constructor
  · intro trades
    cases trades with
    | none => simp [handler]
    | some ts =>
      cases ts with
      | nil => simp [handler]
      | cons a l => simp [handler]
  · intro ts h
    cases ts with
    | nil => exact absurd rfl h
    | cons a l => simp [handler]

theorem spec_C6_witness :
    ([exPut100] ≠ ([] : List Trade)) ∧
      handler exTolHalf (some [exPut100]) =
        Except.ok ([exPut100].map (evalTrade exTolHalf)) := by
  have h : [exPut100] ≠ ([] : List Trade) := List.cons_ne_nil _ _
  exact ⟨h, (spec_C6 exTolHalf).2 [exPut100] h⟩

/-- C7: for a non-empty batch the handler returns one evaluated trade per
input trade, in order — the i-th output is `evalTrade` of the i-th input —
so nothing is dropped, duplicated or reordered, and each output depends only
on the tolerances and its own trade. -/
theorem spec_C7 (tol : Tolerances) (ts : List Trade) (h : ts ≠ []) :
    ∃ rs : List EvaluatedTrade,
      handler tol (some ts) = Except.ok rs ∧ rs.length = ts.length ∧
        ∀ i : Nat, rs.get? i = (ts.get? i).map (evalTrade tol) := by
  refine ⟨ts.map (evalTrade tol), ?_, by simp, ?_⟩
  · have hl : ts.length ≠ 0 := fun hlen => h (List.length_eq_zero.mp hlen)
    have hred : handler tol (some ts) =
        if ts.length = 0 then Except.error ⟨400, "No trades provided"⟩
        else Except.ok (ts.map (evalTrade tol)) := rfl
    rw [hred, if_neg hl]
  · intro i
    simp [List.get?_map]

theorem spec_C7_witness :
    ([exPut100] ≠ ([] : List Trade)) ∧
      ∃ rs : List EvaluatedTrade,
        handler exTolHalf (some [exPut100]) = Except.ok rs ∧
          rs.length = [exPut100].length ∧
          ∀ i : Nat, rs.get? i = ([exPut100].get? i).map (evalTrade exTolHalf) := by
  have h : [exPut100] ≠ ([] : List Trade) := List.cons_ne_nil _ _
  exact ⟨h, spec_C7 exTolHalf [exPut100] h⟩

/-- C8: for valid calendar dates the derived `dte` is the day difference
clamped below at 1, hence at least 1 even for same-day or past expirations,
so the divisor `dte` in the annualized-ROI computation is never zero. -/
theorem spec_C8 (trade : Trade) (h1 : trade.tradeDate.isValid)
    (h2 : trade.expirationDate.isValid) :
    dte trade = max 1 (trade.expirationDate.toEpochDays - trade.tradeDate.toEpochDays) ∧
      1 ≤ dte trade ∧ ((dte trade : ℚ) ≠ 0) := by
  have key : dte trade =
      max 1 (trade.expirationDate.toEpochDays - trade.tradeDate.toEpochDays) := by
    unfold dte Date.getTime
    congr 1
    have hq : ((trade.expirationDate.toEpochDays * 86400000 -
          trade.tradeDate.toEpochDays * 86400000 : ℤ) : ℚ) / (1000 * 60 * 60 * 24) =
        ((trade.expirationDate.toEpochDays - trade.tradeDate.toEpochDays : ℤ) : ℚ) := by
      push_cast
      field_simp
      ring
    rw [hq, Int.ceil_intCast]
  have hge : 1 ≤ dte trade := by
    rw [key]
    exact le_max_left 1 _
  refine ⟨key, hge, ?_⟩
  have hpos : (0 : ℚ) < (dte trade : ℚ) := by
    exact_mod_cast lt_of_lt_of_le Int.zero_lt_one hge
  exact ne_of_gt hpos

theorem spec_C8_witness :
    exPut100.tradeDate.isValid ∧ exPut100.expirationDate.isValid ∧ 1 ≤ dte exPut100 := by
  have h1 : exPut100.tradeDate.isValid := by decide
  have h2 : exPut100.expirationDate.isValid := by decide
  exact ⟨h1, h2, (spec_C8 exPut100 h1 h2).2.1⟩

/-- C9: when `minROI` is set and the trade is not hard-failed, the ROI
criterion necessarily earns its full 35 points (the partial-credit branch is
unreachable since `annualROI < minROI` would have hard-failed), and the ROI
component heads the breakdown with earned = max = 35. -/
theorem spec_C9 (tol : Tolerances) (trade : Trade) (m : ℚ) (htol : tol.minROI = some m)
    (hf : hardFail tol trade = false) :
    m ≤ annualROI trade ∧
      (evalTrade tol trade).breakdown.head? =
        some ⟨"roi", "Annual ROI", 35, 35, some "Meets or exceeds minimum ROI"⟩ := by
  have hge : m ≤ annualROI trade := by
    have h := (hardFail_false_iff tol trade).mp hf
    rwa [hardFailThreshold_of_minROI htol] at h
  refine ⟨hge, ?_⟩
  obtain ⟨l, hl⟩ := runScoring_breakdown_head htol hf
  simp [evalTrade, hf, hl]

theorem spec_C9_witness :
    exTolTenth.minROI = some 0.1 ∧ hardFail exTolTenth exPut100 = false ∧
      (0.1 : ℚ) ≤ annualROI exPut100 := by
  exact ⟨rfl, hardFail_exTolTenth_exPut100,
    (spec_C9 exTolTenth exPut100 0.1 rfl hardFail_exTolTenth_exPut100).1⟩

/-- C10: every non-hard-failed trade has at least 10 total possible points
(collateral is always scored), so the `totalPossible = 0` fallback is never
taken on this path, and with an empty tolerances object and no applicable
support variance the score is exactly the collateral tier (100, 50 or 20). -/
theorem spec_C10 (tol : Tolerances) (trade : Trade) (hf : hardFail tol trade = false) :
    10 ≤ (evalTrade tol trade).totalPossible ∧
      finalScore tol trade =
        pointsFinal tol trade / (runScoring tol trade).totalPossible * 100 ∧
      (tol = exTolEmpty → supportVariancePct trade = none →
        (evalTrade tol trade).score =
          (if collateralAtRisk trade < 20000 then 100
            else if collateralAtRisk trade ≤ 50000 then 50 else 20)) := by
  have htp := runScoring_totalPossible tol trade hf
  refine ⟨?_, ?_, ?_⟩
  · simp only [evalTrade, hf, Bool.false_eq_true, if_false]
    exact htp
  · unfold finalScore
    rw [if_pos (by linarith : (0 : ℚ) < (runScoring tol trade).totalPossible)]
  · intro htol hs
    subst htol
    exact score_emptyTol trade hf hs

theorem spec_C10_witness :
    hardFail exTolEmpty exCall600 = false ∧
      10 ≤ (evalTrade exTolEmpty exCall600).totalPossible := by
  exact ⟨hardFail_exTolEmpty_exCall600,
    (spec_C10 exTolEmpty exCall600 hardFail_exTolEmpty_exCall600).1⟩

end OptionsScreener
